import Mathlib

/-!
Verification development for the anonic message-relay bot.

The definitions below are a shallow embedding of the routing and
abuse-control core of the bot:

* `src/bot/store/sqlite_store.py` (the live `SQLiteStore`, selected by the
  `bot.store` package) — modelled as pure state transformers over a `Store`
  record whose lists mirror the SQLite tables of `src/bot/store/schema.py`.
  ISO-8601 UTC timestamp strings compare lexicographically in chronological
  order, so timestamps are modelled as integers (seconds).
* `src/bot/handlers/common.py` (`can_connect`),
  `src/bot/handlers/messaging.py` (`anonymous_handler`),
  `src/bot/handlers/start.py` (temp-link activation), and
  `src/bot/utils.py` (`extract_nickname_from_message`).

External collaborators (the Telegram transport) are passed in as explicit
function parameters; the SHA-256 digest used by `generate_special_code` is
likewise passed in as a function parameter, since no property below depends
on the actual hash values.
-/

namespace Anonic

/-- A row of the `users` table (plus the dict fields handlers read).
Timestamps are integer seconds; `allowed_types` is `none` when the column is
NULL/empty (the Python code then substitutes a default on read). -/
structure UserRec where
  token : String
  nickname : String
  special_code : String
  banned : Bool
  ban_expires_at : Option Int
  last_revoke : Option Int
  allowed_types : Option (List String)
  messages_sent : Nat
  messages_received : Nat
  revoke_count : Nat
  last_activity : Int
  protect_content : Bool
  frame : Option String
  profile_token : String
  deriving Repr, DecidableEq

/-- A row of the `blocks` table. -/
structure BlockRec where
  recipient_id : Int
  blocked_user_id : Int
  nickname : String
  special_code : String
  deriving Repr, DecidableEq

/-- A row of the `pending_targets` table (primary key `sender_id`). -/
structure PendingRec where
  sender_id : Int
  target_id : Int
  created_at : Int
  deriving Repr, DecidableEq

/-- A row of the `messages` table (reply-routing records, primary key
`bot_msg_id`). -/
structure MsgRouteRec where
  bot_msg_id : Int
  sender_id : Int
  receiver_id : Int
  timestamp : Int
  deriving Repr, DecidableEq

/-- A row of the `message_timestamps` table (rate limiting). -/
structure TsRec where
  user_id : Int
  target_id : Int
  timestamp : Int
  deriving Repr, DecidableEq

/-- A row of the `temp_links` table (primary key `token`). -/
structure TempLinkRec where
  token : String
  user_id : Int
  created_at : Int
  expires_at : Option Int
  max_uses : Option Nat
  current_uses : Nat
  active : Bool
  deriving Repr, DecidableEq

/-- A row of the `revoke_history` table. -/
structure RevokeRec where
  user_id : Int
  old_token : String
  old_nickname : String
  revoked_at : Int
  deriving Repr, DecidableEq

/-- The persistent store: one list per SQLite table of `schema.py`.
`users` is an association list keyed by `telegram_id`. -/
structure Store where
  users : List (Int × UserRec)
  blocks : List BlockRec
  pending_targets : List PendingRec
  messages : List MsgRouteRec
  message_timestamps : List TsRec
  temp_links : List TempLinkRec
  revoke_history : List RevokeRec
  deriving Repr, DecidableEq

/-- `SQLiteStore.VALID_TYPES`. -/
def VALID_TYPES : List String :=
  ["all",
   "text", "url", "email", "phone", "cashtag", "hashtag", "spoiler",
   "emoji", "emojionly", "emojicustom", "cyrillic", "zalgo",
   "photo", "video", "gif", "voice", "videonote", "audio", "document",
   "sticker", "stickeranimated", "stickerpremium",
   "location", "poll", "inline", "button", "game", "emojigame",
   "forward", "forwardbot", "forwardchannel", "forwardstory", "forwarduser",
   "externalreply"]

/-- `SQLiteStore.BLOCKED_TYPES`. -/
def BLOCKED_TYPES : List String := ["contact", "venue", "successful_payment"]

/-- `SQLiteStore.DEFAULT_ALLOWED`. -/
def DEFAULT_ALLOWED : List String :=
  ["text", "emoji", "emojionly", "emojicustom", "cyrillic",
   "photo", "video", "gif", "voice", "videonote", "audio", "document",
   "sticker", "stickeranimated", "stickerpremium",
   "spoiler", "url", "hashtag"]

/-- The alphabet `string.ascii_lowercase + string.digits` (36 characters). -/
def SPECIAL_CODE_CHARS : List Char := "abcdefghijklmnopqrstuvwxyz0123456789".toList

/-- `generate_special_code` of `sqlite_store.py`: an 8-character code computed
from `sha256(f"anonic_{user_id}_uid")`, each output character indexing the
36-character alphabet by a digest byte.  The SHA-256 digest itself is passed
in as `digest` (a byte list per input string); every property proved below
holds for an arbitrary digest function, in particular for real SHA-256. -/
def generate_special_code (digest : String → List Nat) (user_id : Int) : String :=
  let hash_input := "anonic_" ++ toString user_id ++ "_uid"
  let hash_bytes := digest hash_input
  String.mk ((List.range 8).map fun i =>
    SPECIAL_CODE_CHARS.getD ((hash_bytes.getD i 0) % SPECIAL_CODE_CHARS.length) 'a')

/-- Python whitespace test for `str.strip` (the characters that occur in the
bot's message texts). -/
def is_py_space (c : Char) : Bool := c = ' ' ∨ c = '\n' ∨ c = '\t' ∨ c = '\r'

/-- Python `str.strip()`. -/
def py_strip (s : List Char) : List Char :=
  ((s.dropWhile is_py_space).reverse.dropWhile is_py_space).reverse

/-- `str.strip()` / SQL `TRIM` as used by the nickname lookup (modelled over
the character list so that it evaluates in the kernel). -/
def str_trim (s : String) : String := String.mk (py_strip s.toList)

/-- `SELECT * FROM users WHERE telegram_id = ?` (`_fetchone_user` / `get_user`). -/
def get_user (s : Store) (telegram_id : Int) : Option UserRec :=
  (s.users.find? fun p => p.1 = telegram_id).map (·.2)

/-- `UPDATE users SET ... WHERE telegram_id = ?`: apply `f` to every row with
the given key (the primary key makes it at most one in the real database). -/
def update_user (s : Store) (telegram_id : Int) (f : UserRec → UserRec) : Store :=
  { s with users := s.users.map fun p => if p.1 = telegram_id then (p.1, f p.2) else p }

/-- `add_user` (`INSERT OR IGNORE INTO users ...`): no-op if the id exists;
otherwise inserts a fresh row whose `special_code` is
`generate_special_code(telegram_id)` and whose `allowed_types` is
`DEFAULT_ALLOWED`. -/
def add_user (digest : String → List Nat) (s : Store) (now : Int) (telegram_id : Int)
    (token nickname : String) (frame : Option String) (profile_token : String) : Store :=
  if s.users.any (fun p => p.1 = telegram_id) then s
  else
    { s with users := s.users ++ [(telegram_id,
        { token := token
          nickname := nickname
          special_code := generate_special_code digest telegram_id
          banned := false
          ban_expires_at := none
          last_revoke := none
          allowed_types := some DEFAULT_ALLOWED
          messages_sent := 0
          messages_received := 0
          revoke_count := 0
          last_activity := now
          protect_content := false
          frame := frame
          profile_token := profile_token })] }

/-- The `SET` clause of the `UPDATE users ...` statement of `revoke_user`:
new token, nickname, frame and profile token, `last_revoke := now`,
`revoke_count` incremented; everything else — in particular `special_code` —
kept. -/
def revoke_update (now : Int) (new_token new_nickname : String)
    (new_frame : Option String) (new_profile_token : String) (v : UserRec) : UserRec :=
  { v with token := new_token, nickname := new_nickname,
           last_revoke := some now, revoke_count := v.revoke_count + 1,
           frame := new_frame, profile_token := new_profile_token }

/-- The success branch of `revoke_user`: archive the old identity in
`revoke_history`, apply `revoke_update` to the user's row, and delete every
temp link the user had issued. -/
def revoke_user_apply (s : Store) (now : Int) (telegram_id : Int)
    (new_token new_nickname : String) (new_frame : Option String)
    (new_profile_token : String) (u : UserRec) : Store :=
  let s1 := { s with revoke_history := s.revoke_history ++
    [{ user_id := telegram_id, old_token := u.token,
       old_nickname := u.nickname, revoked_at := now }] }
  let s2 := update_user s1 telegram_id
    (revoke_update now new_token new_nickname new_frame new_profile_token)
  { s2 with temp_links := s2.temp_links.filter fun l => l.user_id ≠ telegram_id }

/-- The weekly-limit test of `revoke_user`: fewer than 7 whole days
(`timedelta.days`, floor division) since the recorded `last_revoke`. -/
def revoke_cooldown (now : Int) (u : UserRec) : Bool :=
  match u.last_revoke with
  | none => false
  | some lr => Int.fdiv (now - lr) 86400 < 7

def revoke_user (s : Store) (now : Int) (telegram_id : Int)
    (new_token new_nickname : String) (new_frame : Option String)
    (new_profile_token : String) : Store × Bool × String :=
  match get_user s telegram_id with
  | none => (s, false, "not_found")
  | some u =>
    if revoke_cooldown now u then (s, false, "wait")
    else
      (revoke_user_apply s now telegram_id new_token new_nickname
        new_frame new_profile_token u, true, "")

/-- `update_last_activity` (no optional-profile arguments). -/
def update_last_activity (s : Store) (now : Int) (telegram_id : Int) : Store :=
  update_user s telegram_id fun u => { u with last_activity := now }

/-- `find_user_by_nickname`: `WHERE TRIM(nickname) = ?` against the stripped
argument. -/
def find_user_by_nickname (s : Store) (nickname : String) : Option Int :=
  (s.users.find? fun p => str_trim p.2.nickname = str_trim nickname).map (·.1)

/-- `get_user_special_code`: empty string for a missing user; the stored code
when non-empty; otherwise the code is regenerated deterministically from the
id (the fire-and-forget write-back is irrelevant to the returned value). -/
def get_user_special_code (digest : String → List Nat) (s : Store) (telegram_id : Int) : String :=
  match get_user s telegram_id with
  | none => ""
  | some u => if u.special_code ≠ "" then u.special_code
              else generate_special_code digest telegram_id

/-- The `UPDATE users SET banned = 1, ban_expires_at = ?` of `ban_user`. -/
def ban_update (now : Int) (duration : Option Int) (v : UserRec) : UserRec :=
  { v with banned := true, ban_expires_at := duration.map (now + ·) }

/-- `ban_user`: `False` when the user is missing or already banned; otherwise
sets `banned`, sets `ban_expires_at := now + duration` when a duration is
given, and deletes the user's row from `pending_targets`. -/
def ban_user (s : Store) (now : Int) (telegram_id : Int) (duration : Option Int) :
    Store × Bool :=
  match get_user s telegram_id with
  | none => (s, false)
  | some u =>
    if u.banned then (s, false)
    else
      let s1 := update_user s telegram_id (ban_update now duration)
      let s2 := { s1 with pending_targets :=
        s1.pending_targets.filter fun p => p.sender_id ≠ telegram_id }
      (s2, true)

/-- `unban_user`. -/
def unban_user (s : Store) (telegram_id : Int) : Store × Bool :=
  match get_user s telegram_id with
  | none => (s, false)
  | some u =>
    if u.banned then
      (update_user s telegram_id fun v =>
        { v with banned := false, ban_expires_at := none }, true)
    else (s, false)

/-- `is_banned` as a pure read: `False` for a missing or unbanned user, and
`False` when the stored expiry lies strictly in the past (the source
additionally fires an asynchronous `unban_user` in that case, which does not
change the returned value). -/
def is_banned (s : Store) (now : Int) (telegram_id : Int) : Bool :=
  match get_user s telegram_id with
  | none => false
  | some u =>
    if !u.banned then false
    else
      match u.ban_expires_at with
      | none => true
      | some e => if now > e then false else true

/-- `block` (`INSERT OR IGNORE INTO blocks`, unique on
`(recipient_id, blocked_user_id)`). -/
def block (digest : String → List Nat) (s : Store) (recipient_id : Int)
    (blocked_user_id : Int) (nickname : String) : Store :=
  if s.blocks.any (fun b => b.recipient_id = recipient_id ∧
      b.blocked_user_id = blocked_user_id) then s
  else
    { s with blocks := s.blocks ++
      [{ recipient_id := recipient_id, blocked_user_id := blocked_user_id,
         nickname := nickname,
         special_code := get_user_special_code digest s blocked_user_id }] }

/-- `is_blocked_by_user_id`. -/
def is_blocked_by_user_id (s : Store) (recipient_id : Int) (blocked_user_id : Int) : Bool :=
  s.blocks.any fun b =>
    b.recipient_id = recipient_id ∧ b.blocked_user_id = blocked_user_id

/-- `lock_type`: removing `"all"` keeps exactly the `"text"` entries of the
current list; a valid type other than `"text"`/`"all"` is removed when
present; `"text"`, `"all"`-less invalid names, and absent types are refused.
Returns the updated store and the `changed` flag the method returns. -/
def lock_type (s : Store) (user_id : Int) (msg_type : String) : Store × Bool :=
  match get_user s user_id with
  | none => (s, false)
  | some u =>
    let allowed : List String := u.allowed_types.getD []
    if msg_type = "all" then
      let new_allowed := allowed.filter fun t => t = "text"
      let changed := new_allowed.length ≠ allowed.length
      if changed then
        (update_user s user_id fun v => { v with allowed_types := some new_allowed }, true)
      else (s, false)
    else if msg_type ∈ VALID_TYPES ∧ msg_type ≠ "text" ∧ msg_type ≠ "all" then
      if msg_type ∉ allowed then (s, false)
      else
        let new_allowed := allowed.filter fun t => t ≠ msg_type
        (update_user s user_id fun v => { v with allowed_types := some new_allowed }, true)
    else (s, false)

/-- `get_allowed_types`: `["text"]` for a missing user or a NULL column. -/
def get_allowed_types (s : Store) (user_id : Int) : List String :=
  match get_user s user_id with
  | none => ["text"]
  | some u =>
    match u.allowed_types with
    | none => ["text"]
    | some l => l

/-- `set_pending_target` (`INSERT OR REPLACE`, primary key `sender_id`),
which also refreshes the sender's `last_activity`. -/
def set_pending_target (s : Store) (now : Int) (sender_id target_id : Int) : Store :=
  let s1 := { s with pending_targets :=
    (s.pending_targets.filter fun p => p.sender_id ≠ sender_id) ++
      [{ sender_id := sender_id, target_id := target_id, created_at := now }] }
  update_last_activity s1 now sender_id

/-- `get_pending_target`: the stored target for the sender, with no check of
`created_at`. -/
def get_pending_target (s : Store) (sender_id : Int) : Option Int :=
  (s.pending_targets.find? fun p => p.sender_id = sender_id).map (·.target_id)

/-- `clear_pending_target`. -/
def clear_pending_target (s : Store) (sender_id : Int) : Store :=
  { s with pending_targets := s.pending_targets.filter fun p => p.sender_id ≠ sender_id }

/-- `get_session` / `get_connection`: the pending target as a session dict;
Python's truthiness test drops a stored target id of `0`. -/
def get_connection (s : Store) (sender_id : Int) : Option Int :=
  match get_pending_target s sender_id with
  | some t => if t ≠ 0 then some t else none
  | none => none

/-- `end_connection` / `clear_session`. -/
def end_connection (s : Store) (sender_id : Int) : Store :=
  clear_pending_target s sender_id

/-- `get_expired_pending_targets`: the `(sender_id, target_id)` pairs whose
`created_at` is strictly older than `now - timeout_minutes * 60`. -/
def get_expired_pending_targets (s : Store) (now : Int) (timeout_minutes : Int) :
    List (Int × Int) :=
  (s.pending_targets.filter fun p => p.created_at < now - timeout_minutes * 60).map
    fun p => (p.sender_id, p.target_id)

/-- `cleanup_expired_pending_targets`: deletes the expired rows and returns
the deleted `(sender_id, target_id)` pairs. -/
def cleanup_expired_pending_targets (s : Store) (now : Int) (timeout_minutes : Int) :
    Store × List (Int × Int) :=
  let expired := get_expired_pending_targets s now timeout_minutes
  let senders := expired.map (·.1)
  ({ s with pending_targets :=
      s.pending_targets.filter fun p => p.sender_id ∉ senders }, expired)

/-- `store_message` (`INSERT OR REPLACE INTO messages`, primary key
`bot_msg_id`): the reply-routing record for a delivered message. -/
def store_message (s : Store) (now : Int) (bot_msg_id sender_id receiver_id : Int) : Store :=
  { s with messages :=
    (s.messages.filter fun m => m.bot_msg_id ≠ bot_msg_id) ++
      [{ bot_msg_id := bot_msg_id, sender_id := sender_id,
         receiver_id := receiver_id, timestamp := now }] }

/-- `get_message_sender`. -/
def get_message_sender (s : Store) (bot_msg_id : Int) : Option Int :=
  (s.messages.find? fun m => m.bot_msg_id = bot_msg_id).map (·.sender_id)

/-- `add_message_timestamp`: insert `(user_id, target_id, now)`, then delete
the rows of that pair strictly older than `now - 60`. -/
def add_message_timestamp (s : Store) (now : Int) (user_id target_id : Int) : Store :=
  let s1 := { s with message_timestamps :=
    s.message_timestamps ++
      [({ user_id := user_id, target_id := target_id, timestamp := now } : TsRec)] }
  { s1 with message_timestamps := s1.message_timestamps.filter fun r =>
      ¬(r.user_id = user_id ∧ r.target_id = target_id ∧ r.timestamp < now - 60) }

/-- `get_message_count_in_window`: count of the pair's rows with
`timestamp ≥ now - 60`. -/
def get_message_count_in_window (s : Store) (now : Int) (user_id target_id : Int) : Nat :=
  (s.message_timestamps.filter fun r =>
    r.user_id = user_id ∧ r.target_id = target_id ∧ now - 60 ≤ r.timestamp).length

/-- The rate limiter's record-and-check as the handlers use it
(`add_message_timestamp` followed by `get_message_count_in_window`). -/
def record_and_check (s : Store) (now : Int) (user_id target_id : Int) : Store × Nat :=
  let s1 := add_message_timestamp s now user_id target_id
  (s1, get_message_count_in_window s1 now user_id target_id)

/-- `get_temp_link`. -/
def get_temp_link (s : Store) (token : String) : Option TempLinkRec :=
  s.temp_links.find? fun l => l.token = token

/-- `create_temp_link` with the freshly generated token passed in explicitly. -/
def create_temp_link (s : Store) (now : Int) (token : String) (user_id : Int)
    (expires_days : Option Int) (max_uses : Option Nat) : Store :=
  { s with temp_links := s.temp_links ++
    [{ token := token, user_id := user_id, created_at := now,
       expires_at := expires_days.map fun d => now + d * 86400,
       max_uses := max_uses, current_uses := 0, active := true }] }

/-- `get_user_by_temp_link` (the first tuple component): `none` when the link
is missing or inactive, when `now` is strictly past `expires_at`, or when
`current_uses` has reached `max_uses`; otherwise the owning user id. -/
def get_user_by_temp_link (s : Store) (now : Int) (token : String) : Option Int :=
  match get_temp_link s token with
  | none => none
  | some link =>
    if !link.active then none
    else
      match link.expires_at with
      | some e => if now > e then none
                  else
                    match link.max_uses with
                    | some m => if link.current_uses ≥ m then none else some link.user_id
                    | none => some link.user_id
      | none =>
        match link.max_uses with
        | some m => if link.current_uses ≥ m then none else some link.user_id
        | none => some link.user_id

/-- `use_temp_link`: `UPDATE temp_links SET current_uses = current_uses + 1
WHERE token = ? AND active = 1` — an unconditional increment of every active
row with that token; the use quota is not consulted.  Returns the updated
store and whether a row was updated. -/
def use_temp_link (s : Store) (token : String) : Store × Bool :=
  let hit := s.temp_links.any fun l => l.token = token ∧ l.active
  ({ s with temp_links := s.temp_links.map fun l =>
      if l.token = token ∧ l.active then
        ({ l with current_uses := l.current_uses + 1 } : TempLinkRec)
      else l }, hit)

/-! ### Python string primitives

`extract_nickname_from_message` (`src/bot/utils.py`) is built from Python's
`str.replace`, `str.split`, `str.strip` and substring tests.  These are
modelled below over `List Char`.  All patterns used by the source are
non-empty, so the empty-pattern special cases of Python are irrelevant. -/

/-- Recursion core of `py_replace`; the fuel (initially the string length)
strictly exceeds the number of characters still to be consumed, so the
`fuel = 0` fallback is never reached on the initial call. -/
def py_replace_go (pat rep : List Char) : Nat → List Char → List Char
  | 0, s => s
  | _, [] => []
  | fuel + 1, c :: rest =>
    if pat ≠ [] ∧ pat.isPrefixOf (c :: rest) then
      rep ++ py_replace_go pat rep fuel (List.drop pat.length (c :: rest))
    else
      c :: py_replace_go pat rep fuel rest

/-- Python `s.replace(pat, rep)` for a non-empty `pat`: left-to-right,
non-overlapping replacement of every occurrence. -/
def py_replace (pat rep s : List Char) : List Char :=
  py_replace_go pat rep s.length s

/-- Recursion core of `py_split_on`, fueled like `py_replace_go`. -/
def py_split_on_go (pat : List Char) : Nat → List Char → List (List Char)
  | 0, s => [s]
  | _, [] => [[]]
  | fuel + 1, c :: rest =>
    if pat ≠ [] ∧ pat.isPrefixOf (c :: rest) then
      [] :: py_split_on_go pat fuel (List.drop pat.length (c :: rest))
    else
      match py_split_on_go pat fuel rest with
      | [] => [[c]]
      | piece :: more => (c :: piece) :: more

/-- Python `s.split(pat)` for a non-empty `pat`. -/
def py_split_on (pat s : List Char) : List (List Char) :=
  py_split_on_go pat s.length s

/-- Python `pat in s` for a non-empty `pat`. -/
def py_contains (pat s : List Char) : Bool := (py_split_on pat s).length > 1

/-- `extract_nickname_from_message` (`src/bot/utils.py`): strip the `<b>`,
`</b>`, `<code>`, `</code>` tags, then try the three text formats
(`"sent to "`, `"established with "`, `"–– "`) in order, each returning the
stripped remainder of its line when non-empty. -/
def extract_nickname_from_message (text : String) : Option String :=
  if text = "" then none
  else
    let c1 := py_replace "<b>".toList [] text.toList
    let c2 := py_replace "</b>".toList [] c1
    let c3 := py_replace "<code>".toList [] c2
    let clean := py_replace "</code>".toList [] c3
    let sent_pieces := py_split_on "sent to ".toList clean
    let try1 : Option (List Char) :=
      if sent_pieces.length > 1 then
        let nick := py_strip ((py_split_on ['\n'] (sent_pieces.getLastD [])).headD [])
        if nick ≠ [] then some nick else none
      else none
    match try1 with
    | some n => some (String.mk n)
    | none =>
      let est_pieces := py_split_on "established with ".toList clean
      let try2 : Option (List Char) :=
        if est_pieces.length > 1 then
          let after_dot := (py_split_on ['.'] (est_pieces.getLastD [])).headD []
          let nick := py_strip ((py_split_on ['\n'] after_dot).headD [])
          if nick ≠ [] then some nick else none
        else none
      match try2 with
      | some n => some (String.mk n)
      | none =>
        let dash_pieces := py_split_on "–– ".toList clean
        if dash_pieces.length > 1 then
          let nick := py_strip ((py_split_on ['\n'] (dash_pieces.getLastD [])).headD [])
          if nick ≠ [] then some (String.mk nick) else none
        else none

/-! ### Handler models -/

/-- `can_connect` (`src/bot/handlers/common.py`): the routing validation for
a message from `user_id` to `target_id`.  Returns `none` on success and
`some reason` on denial.  The trailing `client.get_chat` reachability probe
(an external transport call whose exceptions map to `blocked`/`deactivated`/
`frozen`/`invalid_peer`) is passed in as `transport`. -/
def can_connect (s : Store) (transport : Int → Option String) (now : Int)
    (user_id target_id : Int) : Option String :=
  if (get_user s user_id).isNone ∨ (get_user s target_id).isNone then some "invalid_peer"
  else if is_banned s now target_id then some "banned"
  else if is_blocked_by_user_id s target_id user_id then some "blocked"
  else if is_blocked_by_user_id s user_id target_id then some "self_blocked"
  else transport target_id

/-- The reply-destination resolution of `anonymous_handler`
(`src/bot/handlers/messaging.py`, the `if reply_text:` block): extract a
nickname from the replied-to message's displayed text, look the nickname up,
and fall back to the sender's current connection (the pending target) when
extraction fails, matches no user, or matches the sender (Python also treats
a user id of `0` as falsy there).  `none` means the handler rejects with
`anonymous_reply_not_found`. -/
def reply_resolve_target (s : Store) (uid : Int) (reply_text : String) : Option Int :=
  match extract_nickname_from_message reply_text with
  | some nick =>
    match find_user_by_nickname s nick with
    | some tid =>
      if tid ≠ uid ∧ tid ≠ 0 then some tid else get_connection s uid
    | none => get_connection s uid
  | none => get_connection s uid

/-- Modelled from the spec: routing step 2 of §4.5 — resolve a reply through
the `MessageRoute` record keyed by the replied-to message's identifier,
taking whichever endpoint of the route is not the sender.  No handler in the
messaging path of the source implements this; it exists here only to be
compared with `reply_resolve_target`. -/
def spec_reply_destination (s : Store) (uid : Int) (replied_msg_id : Int) : Option Int :=
  match s.messages.find? (fun m => m.bot_msg_id = replied_msg_id) with
  | some r => if r.sender_id ≠ uid then some r.sender_id else some r.receiver_id
  | none => none

/-- The observable outcome of `anonymous_handler` for one inbound message. -/
inductive Outcome
  | noUser
  | rejectedBanned
  | unsupportedType
  | noConnection
  | connectionFailed (reason : String)
  | targetNotFound
  | typeBlocked (t : String)
  | spamBanned
  | delivered
  deriving Repr, DecidableEq

/-- `anonymous_handler` (`src/bot/handlers/messaging.py`) for a non-reply
message from `uid` carrying the type tags `msg_types`, with the transport
delivery assumed to succeed: registration and ban gates, the hard
`BLOCKED_TYPES` filter, connection resolution via the pending target,
`can_connect` validation (clearing the connection on failure), the
destination's per-type allow-list (with the `"text"` exemption), and the
anti-spam check — over 60 messages in the 60-second window bans the sender
for 1 day and emits one moderation report instead of delivering.  The third
component counts the moderation report events emitted by the call.  (On the
delivery path the source then calls `store.increment_message_count`, a
method the SQLite store does not define; the resulting `AttributeError` is
swallowed by the handler's generic `except`, so no further store write
happens after a successful send.) -/
def process_message (s : Store) (transport : Int → Option String) (now : Int)
    (uid : Int) (msg_types : List String) : Store × Outcome × Nat :=
  match get_user s uid with
  | none => (s, .noUser, 0)
  | some _user =>
    if is_banned s now uid then (s, .rejectedBanned, 0)
    else
      let s1 := update_last_activity s now uid
      if msg_types.any (fun t => t ∈ BLOCKED_TYPES) then (s1, .unsupportedType, 0)
      else
        match get_connection s1 uid with
        | none => (s1, .noConnection, 0)
        | some target_id =>
          match can_connect s1 transport now uid target_id with
          | some reason =>
            let s2 := update_last_activity (end_connection s1 uid) now uid
            (s2, .connectionFailed reason, 0)
          | none =>
            match get_user s1 target_id with
            | none =>
              let s2 := update_last_activity (end_connection s1 uid) now uid
              (s2, .targetNotFound, 0)
            | some _target =>
              let allowed := get_allowed_types s1 target_id
              match msg_types.filter (fun t => t ∉ allowed ∧ t ≠ "text") with
              | tb :: _ => (s1, .typeBlocked tb, 0)
              | [] =>
                let s2 := add_message_timestamp s1 now uid target_id
                let c := get_message_count_in_window s2 now uid target_id
                if c > 60 then
                  let s3 := (ban_user s2 now uid (some 86400)).1
                  (s3, .spamBanned, 1)
                else
                  (s2, .delivered, 0)

/-- Process a sequence of non-reply messages from `uid` at the given times,
collecting the per-message outcomes and the total number of moderation
report events. -/
def process_messages (transport : Int → Option String) (uid : Int)
    (msg_types : List String) : Store → List Int → Store × List Outcome × Nat
  | s, [] => (s, [], 0)
  | s, t :: ts =>
    let r1 := process_message s transport t uid msg_types
    let r2 := process_messages transport uid msg_types r1.1 ts
    (r2.1, r1.2.1 :: r2.2.1, r1.2.2 + r2.2.2)

/-- One invitation activation of `start_cmd` (`src/bot/handlers/start.py`,
lines 90–98): resolve the token through `get_user_by_temp_link`, and only on
success consume it with `use_temp_link`.  Returns the owner revealed to the
activating user, if any. -/
def activate_temp_link (s : Store) (now : Int) (token : String) : Store × Option Int :=
  match get_user_by_temp_link s now token with
  | none => (s, none)
  | some owner => ((use_temp_link s token).1, some owner)

/-- Two concurrent activations of the same token, interleaved so that both
tasks perform their `get_user_by_temp_link` read before either
`use_temp_link` write — the schedule the spec's concurrency contract is
about.  Returns the final store and the owner revealed to each task. -/
def concurrent_activation (s : Store) (now : Int) (token : String) :
    Store × Option Int × Option Int :=
  let r1 := get_user_by_temp_link s now token
  let r2 := get_user_by_temp_link s now token
  let s1 := if r1.isSome then (use_temp_link s token).1 else s
  let s2 := if r2.isSome then (use_temp_link s1 token).1 else s1
  (s2, r1, r2)

/-! ### Basic lemmas about the store operations -/

theorem find?_fst_map (l : List (Int × UserRec)) (g : Int × UserRec → Int × UserRec)
    (hg : ∀ p, (g p).1 = p.1) (j : Int) :
    ((l.map g).find? fun p => p.1 = j) = (l.find? fun p => p.1 = j).map g := by
  induction l with
  | nil => rfl
  | cons p l ih =>
    by_cases hp : p.1 = j
    · simp [List.find?_cons, hg p, hp]
    · simp [List.find?_cons, hg p, hp, ih]

theorem get_user_update_self (s : Store) (id : Int) (f : UserRec → UserRec) :
    get_user (update_user s id f) id = (get_user s id).map f := by
  unfold get_user update_user
  rw [find?_fst_map _ _ (by intro p; by_cases h : p.1 = id <;> simp [h])]
  cases ho : s.users.find? fun p => p.1 = id with
  | none => rfl
  | some p =>
    have hp : p.1 = id := by simpa using List.find?_some ho
    simp [hp]

theorem get_user_update_ne (s : Store) (id j : Int) (f : UserRec → UserRec)
    (h : j ≠ id) : get_user (update_user s id f) j = get_user s j := by
  unfold get_user update_user
  rw [find?_fst_map _ _ (by intro p; by_cases hh : p.1 = id <;> simp [hh])]
  cases ho : s.users.find? fun p => p.1 = j with
  | none => rfl
  | some p =>
    have hp : p.1 = j := by simpa using List.find?_some ho
    simp [hp, h]

theorem get_user_update (s : Store) (id j : Int) (f : UserRec → UserRec) :
    get_user (update_user s id f) j =
      if j = id then (get_user s id).map f else get_user s j := by
  by_cases h : j = id
  · subst h; simp [get_user_update_self]
  · simp [h, get_user_update_ne _ _ _ _ h]

theorem update_user_pending (s : Store) (id : Int) (f : UserRec → UserRec) :
    (update_user s id f).pending_targets = s.pending_targets := rfl

theorem update_user_blocks (s : Store) (id : Int) (f : UserRec → UserRec) :
    (update_user s id f).blocks = s.blocks := rfl

theorem update_user_messages (s : Store) (id : Int) (f : UserRec → UserRec) :
    (update_user s id f).messages = s.messages := rfl

theorem update_user_timestamps (s : Store) (id : Int) (f : UserRec → UserRec) :
    (update_user s id f).message_timestamps = s.message_timestamps := rfl

theorem update_user_temp_links (s : Store) (id : Int) (f : UserRec → UserRec) :
    (update_user s id f).temp_links = s.temp_links := rfl

/-! ### Concrete example states used in counterexamples and witnesses -/

/-- A user record with the fields a fresh `add_user` row carries. -/
def mk_user (token nickname code : String) : UserRec :=
  ⟨token, nickname, code, false, none, none, some DEFAULT_ALLOWED,
   0, 0, 0, 0, false, none, code ++ "p"⟩

/-- A transport on which every destination is reachable. -/
def transport_ok : Int → Option String := fun _ => none

/-- A one-use invitation link owned by user 7, not yet used. -/
def c2_link : TempLinkRec := ⟨"tok", 7, 0, none, some 1, 0, true⟩

def c2_store : Store := ⟨[], [], [], [], [], [c2_link], []⟩

/-- A link owned by user 9 that expires at time 100, without a use quota. -/
def c7_link : TempLinkRec := ⟨"tok7", 9, 0, some 100, none, 0, true⟩

def c7_store : Store := ⟨[], [], [], [], [], [c7_link], []⟩

/-- User 1 (Alice) has blocked user 2 (Bob); neither is banned. -/
def c3_store : Store :=
  ⟨[(1, mk_user "ta" "Alice" "ca"), (2, mk_user "tb" "Bob" "cb")],
   [⟨1, 2, "Bob", "cb"⟩], [], [], [], [], []⟩

/-- A pending target of sender 1 towards target 2, created at time 0. -/
def c4_store : Store := ⟨[], [], [⟨1, 2, 0⟩], [], [], [], []⟩

/-! ### C2 — temp-link consumption is not an atomic check-and-increment -/

/-- C2: the claim fails on the code.  `use_temp_link` increments
`current_uses` of any active link without consulting the use quota, and the
activation path checks the quota only in the separate
`get_user_by_temp_link` read.  For a fresh link with `max_uses = 1`, in the
interleaving where both concurrent activations read before either writes,
both resolve the owner (user 7 is revealed to both), both consume calls
report success, and the final use count is 2 — the claim required exactly
one of the two activations to succeed. -/
theorem temp_link_concurrent_activation_both_succeed :
    c2_link.max_uses = some 1 ∧ c2_link.current_uses = 0 ∧
    (concurrent_activation c2_store 10 "tok").2.1 = some 7 ∧
    (concurrent_activation c2_store 10 "tok").2.2 = some 7 ∧
    (use_temp_link c2_store "tok").2 = true ∧
    (use_temp_link (use_temp_link c2_store "tok").1 "tok").2 = true ∧
    (get_temp_link (concurrent_activation c2_store 10 "tok").1 "tok").map
      TempLinkRec.current_uses = some 2 := by decide

/-! ### C7 — temp-link resolution conditions -/

/-- C7 counterexample: with `expires_at = 100` and the current time exactly
100, "the current time is before `expires_at`" is false, yet the link still
resolves to its owner — the code only rejects when `now` is strictly past
the expiry. -/
theorem temp_link_expiry_boundary_counterexample :
    c7_link.expires_at = some 100 ∧ ¬((100 : Int) < 100) ∧
    get_user_by_temp_link c7_store 100 "tok7" = some 9 := by decide

/-- C7 amended: resolving a stored link returns its owner exactly when the
link is active, the current time is **not after** `expires_at` (when set),
and `current_uses` is below `max_uses` (when set). -/
theorem temp_link_resolve_characterization (s : Store) (now : Int) (token : String)
    (link : TempLinkRec) (h : get_temp_link s token = some link) :
    get_user_by_temp_link s now token = some link.user_id ↔
      (link.active = true ∧
       (match link.expires_at with | some e => now ≤ e | none => True) ∧
       (match link.max_uses with | some m => link.current_uses < m | none => True)) := by
  unfold get_user_by_temp_link
  rw [h]
  rcases hact : link.active with _ | _
  · simp [hact]
  · rcases hexp : link.expires_at with _ | e
    · rcases hmax : link.max_uses with _ | m
      · simp [hact, hexp, hmax]
      · by_cases hu : link.current_uses ≥ m
        · simp [hact, hexp, hmax, hu, Nat.not_lt.mpr hu]
        · simp [hact, hexp, hmax, hu, Nat.lt_of_not_le hu]
    · by_cases he : now > e
      · simp [hact, hexp, he, Int.not_le.mpr he]
      · rcases hmax : link.max_uses with _ | m
        · simp [hact, hexp, he, hmax, Int.not_lt.mp he]
        · by_cases hu : link.current_uses ≥ m
          · simp [hact, hexp, he, hmax, hu, Nat.not_lt.mpr hu]
          · simp [hact, hexp, he, hmax, hu, Int.not_lt.mp he, Nat.lt_of_not_le hu]

theorem temp_link_resolve_characterization_witness :
    get_temp_link c7_store "tok7" = some c7_link ∧
    (get_user_by_temp_link c7_store 50 "tok7" = some c7_link.user_id ↔
      (c7_link.active = true ∧
       (match c7_link.expires_at with | some e => (50 : Int) ≤ e | none => True) ∧
       (match c7_link.max_uses with | some m => c7_link.current_uses < m | none => True))) :=
  ⟨by decide, temp_link_resolve_characterization c7_store 50 "tok7" c7_link (by decide)⟩

/-! ### C4 — pending-target expiry -/

/-- C4 counterexample: at time 400 the pending target created at time 0 is
expired by the sweep's own 5-minute criterion, yet both `get_pending_target`
and the connection view the routing engine consults still resolve it as the
destination — the routing read performs no expiry check. -/
theorem expired_pending_target_still_resolved :
    get_expired_pending_targets c4_store 400 5 = [(1, 2)] ∧
    get_pending_target c4_store 1 = some 2 ∧
    get_connection c4_store 1 = some 2 := by decide

/-- C4 amended: a pending target older than the timeout is removed (and its
pair reported for notification) when `cleanup_expired_pending_targets` is
actually invoked, after which the routing read no longer resolves it; but
the routing read itself ignores `created_at` entirely — rewriting every
row's creation time does not change what `get_pending_target` returns. -/
theorem pending_expiry_only_on_sweep (s : Store) (now timeout sender t c : Int)
    (h : (sender, t) ∈ get_expired_pending_targets s now timeout) :
    get_pending_target (cleanup_expired_pending_targets s now timeout).1 sender = none ∧
    get_pending_target
        { s with pending_targets :=
            s.pending_targets.map (fun p => { p with created_at := c }) } sender =
      get_pending_target s sender := by
  constructor
  · have hsender : sender ∈ (get_expired_pending_targets s now timeout).map (·.1) :=
      List.mem_map.mpr ⟨(sender, t), h, rfl⟩
    unfold get_pending_target cleanup_expired_pending_targets
    rw [List.find?_eq_none.mpr]
    · rfl
    · intro p hp
      have hkeep := List.of_mem_filter hp
      simp only [decide_eq_true_eq] at hkeep
      simp only [decide_eq_true_eq]
      intro hps
      exact hkeep (hps ▸ hsender)
  · unfold get_pending_target
    have : ∀ l : List PendingRec,
        ((l.map fun p => ({ p with created_at := c } : PendingRec)).find?
          fun p => p.sender_id = sender).map (·.target_id) =
        (l.find? fun p => p.sender_id = sender).map (·.target_id) := by
      intro l
      induction l with
      | nil => rfl
      | cons p l ih =>
        by_cases hp : p.sender_id = sender
        · simp [List.find?_cons, hp]
        · have h1 : (decide (({ p with created_at := c } : PendingRec).sender_id = sender)) = false := by
            simp [hp]
          have h2 : (decide (p.sender_id = sender)) = false := by simp [hp]
          simp only [List.map_cons, List.find?_cons, h1, h2, cond_false]
          exact ih
    exact this s.pending_targets

theorem pending_expiry_only_on_sweep_witness :
    (1, 2) ∈ get_expired_pending_targets c4_store 400 5 ∧
    (get_pending_target (cleanup_expired_pending_targets c4_store 400 5).1 1 = none ∧
     get_pending_target
         { c4_store with pending_targets :=
             c4_store.pending_targets.map (fun p => { p with created_at := 999 }) } 1 =
       get_pending_target c4_store 1) :=
  ⟨by decide, pending_expiry_only_on_sweep c4_store 400 5 1 2 999 (by decide)⟩

/-! ### C3 — the two directions of a block -/

/-- C3 counterexample: user 1 (Alice) has blocked user 2 (Bob), neither is
banned and the transport is fine, yet routing from Alice to Bob is rejected
(with `self_blocked`) — the claim asserted that direction is unaffected by
Alice's block.  The Bob-to-Alice direction is rejected with `blocked` as
claimed. -/
theorem block_reverse_direction_counterexample :
    can_connect c3_store transport_ok 0 2 1 = some "blocked" ∧
    can_connect c3_store transport_ok 0 1 2 = some "self_blocked" ∧
    transport_ok 2 = none := by decide

/-- C3 amended: when A has blocked B (and neither is banned nor covered by
the reverse block), routing from B to A is rejected with `blocked`, and
routing from A to B is **also** rejected, with the distinct `self_blocked`
reason — `can_connect` checks the sender's own block list too. -/
theorem block_rejects_both_directions (s : Store) (transport : Int → Option String)
    (now a b : Int) (ua ub : UserRec)
    (ha : get_user s a = some ua) (hb : get_user s b = some ub)
    (hbana : ua.banned = false) (hbanb : ub.banned = false)
    (hblock : is_blocked_by_user_id s a b = true)
    (hrev : is_blocked_by_user_id s b a = false) :
    can_connect s transport now b a = some "blocked" ∧
    can_connect s transport now a b = some "self_blocked" := by
  have hbanA : is_banned s now a = false := by
    unfold is_banned; rw [ha]; simp [hbana]
  have hbanB : is_banned s now b = false := by
    unfold is_banned; rw [hb]; simp [hbanb]
  unfold can_connect
  rw [ha, hb]
  simp [hbanA, hbanB, hblock, hrev]

theorem block_rejects_both_directions_witness :
    get_user c3_store 1 = some (mk_user "ta" "Alice" "ca") ∧
    (can_connect c3_store transport_ok 0 2 1 = some "blocked" ∧
     can_connect c3_store transport_ok 0 1 2 = some "self_blocked") :=
  ⟨by decide, block_rejects_both_directions c3_store transport_ok 0 1 2
    (mk_user "ta" "Alice" "ca") (mk_user "tb" "Bob" "cb")
    (by decide) (by decide) (by decide) (by decide) (by decide) (by decide)⟩

/-! ### C9 — banning clears the pending target and nothing else of the user -/

theorem find?_append_none {α : Type} (p : α → Bool) (l1 l2 : List α)
    (h : l1.find? p = none) : (l1 ++ l2).find? p = l2.find? p := by
  rw [List.find?_append, h, Option.none_or]

theorem get_user_eq_of_users_eq (s1 s2 : Store) (h : s1.users = s2.users) (j : Int) :
    get_user s1 j = get_user s2 j := by
  unfold get_user; rw [h]

theorem find?_filter_ne_none (l : List PendingRec) (id : Int) :
    ((l.filter fun p => p.sender_id ≠ id).find? fun p => p.sender_id = id) = none := by
  apply List.find?_eq_none.mpr
  intro p hp
  have hkeep := List.of_mem_filter hp
  simp only [decide_eq_true_eq] at hkeep ⊢
  exact fun h => hkeep h

/-- User 5 with a pending target towards user 6, used as the C9 witness. -/
def c9_store : Store :=
  ⟨[(5, mk_user "t5" "Eve" "c5")], [], [⟨5, 6, 0⟩], [], [], [], []⟩

/-- C9: a successful `ban_user` (including the 24-hour spam auto-ban)
reports success, deletes the user's pending target, and changes only the
`banned` flag and `ban_expires_at` of the user's record — token, nickname,
short code, counters and everything else of the record are expressed
unchanged by the record-update equality — while the block table and the
temp links are untouched. -/
theorem ban_clears_pending_target_frame (s : Store) (now id : Int)
    (dur : Option Int) (u : UserRec)
    (hu : get_user s id = some u) (hb : u.banned = false) :
    (ban_user s now id dur).2 = true ∧
    get_pending_target (ban_user s now id dur).1 id = none ∧
    get_user (ban_user s now id dur).1 id =
      some { u with banned := true, ban_expires_at := dur.map (now + ·) } ∧
    (ban_user s now id dur).1.blocks = s.blocks ∧
    (ban_user s now id dur).1.temp_links = s.temp_links := by
  unfold ban_user
  split
  · next heq => rw [heq] at hu; exact absurd hu (by simp)
  · next u' heq =>
    rw [hu] at heq
    injection heq with hu'
    subst hu'
    rw [if_neg (by rw [hb]; exact Bool.false_ne_true)]
    refine ⟨rfl, ?_, ?_, rfl, rfl⟩
    · have h2 : ((((update_user s id (ban_update now dur)).pending_targets.filter (fun p => p.sender_id ≠ id)).find? (fun p => p.sender_id = id)).map (·.target_id) : Option Int) = none := by
        rw [find?_filter_ne_none]; rfl
      exact h2
    · have h3 : get_user (update_user s id (ban_update now dur)) id =
          some (ban_update now dur u) := by
        rw [get_user_update_self, hu]; rfl
      exact h3

theorem ban_clears_pending_target_frame_witness :
    get_user c9_store 5 = some (mk_user "t5" "Eve" "c5") ∧
    ((ban_user c9_store 100 5 (some 86400)).2 = true ∧
     get_pending_target (ban_user c9_store 100 5 (some 86400)).1 5 = none ∧
     get_user (ban_user c9_store 100 5 (some 86400)).1 5 =
       some { mk_user "t5" "Eve" "c5" with
                banned := true
                ban_expires_at := (some (86400 : Int)).map ((100 : Int) + ·) } ∧
     (ban_user c9_store 100 5 (some 86400)).1.blocks = c9_store.blocks ∧
     (ban_user c9_store 100 5 (some 86400)).1.temp_links = c9_store.temp_links) :=
  ⟨by decide, ban_clears_pending_target_frame c9_store 100 5 (some 86400)
    (mk_user "t5" "Eve" "c5") (by decide) (by decide)⟩

/-! ### C8 — the short code survives identity rotation -/

/-- The arguments of one `revoke_user` call. -/
structure RevokeCall where
  now : Int
  telegram_id : Int
  new_token : String
  new_nickname : String
  new_frame : Option String
  new_profile_token : String

/-- Run a sequence of `revoke_user` calls (each may succeed or hit the
cooldown / not-found failure). -/
def apply_revokes (s : Store) : List RevokeCall → Store
  | [] => s
  | a :: rest =>
    apply_revokes
      (revoke_user s a.now a.telegram_id a.new_token a.new_nickname
        a.new_frame a.new_profile_token).1 rest

theorem map_special_update (s : Store) (id j : Int) (f : UserRec → UserRec)
    (hf : ∀ v, (f v).special_code = v.special_code) :
    (get_user (update_user s id f) j).map (·.special_code) =
      (get_user s j).map (·.special_code) := by
  rw [get_user_update]
  by_cases hj : j = id
  · subst hj
    rw [if_pos rfl]
    cases get_user s j <;> simp [hf]
  · rw [if_neg hj]

theorem revoke_apply_preserves_special (s : Store) (now id j : Int)
    (tok nick : String) (fr : Option String) (pt : String) (u : UserRec) :
    (get_user (revoke_user_apply s now id tok nick fr pt u) j).map (·.special_code) =
      (get_user s j).map (·.special_code) := by
  have e1 : get_user (revoke_user_apply s now id tok nick fr pt u) j =
      get_user (update_user
        { s with revoke_history := s.revoke_history ++
            [{ user_id := id, old_token := u.token, old_nickname := u.nickname,
               revoked_at := now }] } id (revoke_update now tok nick fr pt)) j := rfl
  rw [e1, map_special_update _ _ _ (revoke_update now tok nick fr pt) (fun v => rfl)]
  exact congrArg (Option.map (·.special_code)) (get_user_eq_of_users_eq _ s rfl j)

theorem revoke_preserves_special_code (s : Store) (now id j : Int)
    (tok nick : String) (fr : Option String) (pt : String) :
    (get_user (revoke_user s now id tok nick fr pt).1 j).map (·.special_code) =
      (get_user s j).map (·.special_code) := by
  unfold revoke_user
  split
  · rfl
  · split
    · rfl
    · exact revoke_apply_preserves_special s now id j tok nick fr pt _

theorem apply_revokes_preserves_special_code (ops : List RevokeCall) (s : Store) (j : Int) :
    (get_user (apply_revokes s ops) j).map (·.special_code) =
      (get_user s j).map (·.special_code) := by
  induction ops generalizing s with
  | nil => rfl
  | cons a rest ih =>
    calc (get_user (apply_revokes (revoke_user s a.now a.telegram_id a.new_token
            a.new_nickname a.new_frame a.new_profile_token).1 rest) j).map (·.special_code)
        = (get_user (revoke_user s a.now a.telegram_id a.new_token
            a.new_nickname a.new_frame a.new_profile_token).1 j).map (·.special_code) := ih _
      _ = (get_user s j).map (·.special_code) :=
          revoke_preserves_special_code _ _ _ _ _ _ _ _

/-- C8: the short code is `generate_special_code` of the external id alone —
a user created by `add_user` carries exactly that code — and any sequence of
`revoke_user` calls (which replace token, nickname, frame and profile token)
leaves the result of the short-code lookup unchanged. -/
theorem special_code_stable_under_revokes (digest : String → List Nat) (s : Store)
    (now id : Int) (tok nick : String) (fr : Option String) (pt : String)
    (ops : List RevokeCall) (habsent : get_user s id = none) :
    (get_user (add_user digest s now id tok nick fr pt) id).map (·.special_code) =
      some (generate_special_code digest id) ∧
    get_user_special_code digest (apply_revokes s ops) id =
      get_user_special_code digest s id := by
  constructor
  · unfold add_user
    have hfind : (s.users.find? fun p => p.1 = id) = none := by
      unfold get_user at habsent
      cases h : s.users.find? fun p => p.1 = id
      · rfl
      · rw [h] at habsent; simp at habsent
    have hany : (s.users.any fun p => p.1 = id) = false := by
      cases h : s.users.any fun p => p.1 = id
      · rfl
      · obtain ⟨p, hp, hpid⟩ := List.any_eq_true.mp h
        have := List.find?_eq_none.mp hfind p hp
        simp_all
    rw [hany]
    simp only [Bool.false_eq_true, if_false]
    unfold get_user
    rw [find?_append_none _ _ _ hfind]
    simp [List.find?_cons]
  · have hmap := apply_revokes_preserves_special_code ops s id
    unfold get_user_special_code
    cases h1 : get_user (apply_revokes s ops) id with
    | none =>
      cases h2 : get_user s id with
      | none => rfl
      | some v => rw [h1, h2] at hmap; simp at hmap
    | some u =>
      cases h2 : get_user s id with
      | none => rw [h1, h2] at hmap; simp at hmap
      | some v =>
        rw [h1, h2] at hmap
        simp at hmap
        show (if u.special_code ≠ "" then u.special_code
              else generate_special_code digest id) =
          (if v.special_code ≠ "" then v.special_code
           else generate_special_code digest id)
        rw [hmap]

theorem special_code_stable_under_revokes_witness :
    get_user c4_store 11 = none ∧
    ((get_user (add_user (fun _ => []) c4_store 0 11 "tk" "Nick" none "pp") 11).map
        (·.special_code) = some (generate_special_code (fun _ => []) 11) ∧
     get_user_special_code (fun _ => [])
        (apply_revokes c4_store [⟨5, 11, "t2", "N2", none, "p2"⟩]) 11 =
       get_user_special_code (fun _ => []) c4_store 11) :=
  ⟨by decide, special_code_stable_under_revokes (fun _ => []) c4_store 0 11 "tk" "Nick"
    none "pp" [⟨5, 11, "t2", "N2", none, "p2"⟩] (by decide)⟩

/-! ### C10 — "text" is always allowed -/

theorem get_allowed_types_update_set (s : Store) (id : Int) (u : UserRec)
    (L : List String) (hu : get_user s id = some u) :
    get_allowed_types (update_user s id fun v => { v with allowed_types := some L }) id = L := by
  unfold get_allowed_types
  rw [get_user_update_self, hu]
  rfl

theorem filter_text_nil (L : List String) :
    (["text"].filter fun x => x ∉ L ∧ x ≠ "text") = [] := by
  simp

/-- C10: locking `"text"` itself is refused and changes nothing; no
`lock_type` call removes `"text"` from a user's allowed types; the type
filter of the messaging handler never selects `"text"` as a blocked type;
and a plain text message is never rejected by the handler with a
`typeBlocked` outcome. -/
theorem text_always_allowed (s : Store) (id uid now : Int) (mt t : String)
    (msg_types allowed : List String) (transport : Int → Option String)
    (h : "text" ∈ get_allowed_types s id) :
    lock_type s id "text" = (s, false) ∧
    "text" ∈ get_allowed_types (lock_type s id mt).1 id ∧
    "text" ∉ msg_types.filter (fun x => x ∉ allowed ∧ x ≠ "text") ∧
    (process_message s transport now uid ["text"]).2.1 ≠ Outcome.typeBlocked t := by
  refine ⟨?_, ?_, ?_, ?_⟩
  · unfold lock_type
    split
    · rfl
    · rw [if_neg (by decide), if_neg (by decide)]
  · unfold lock_type
    split
    · exact h
    · next u heq =>
      have hga : get_allowed_types s id =
          match u.allowed_types with | none => ["text"] | some l => l := by
        unfold get_allowed_types; rw [heq]
      rcases hat : u.allowed_types with _ | l
      · rw [hat] at hga
        dsimp only
        split
        · rw [if_neg (by decide)]
          exact h
        · split
          · split
            · exact h
            · next hmem => exact absurd (not_not.mp hmem) (List.not_mem_nil mt)
          · exact h
      · rw [hat] at hga
        have hl : "text" ∈ l := by rw [hga] at h; exact h
        dsimp only
        split
        · split
          · show "text" ∈ get_allowed_types
              (update_user s id fun v =>
                { v with allowed_types := some (l.filter fun x => x = "text") }) id
            rw [get_allowed_types_update_set s id u _ heq]
            exact List.mem_filter.mpr ⟨hl, by decide⟩
          · exact h
        · split
          · next hcond =>
            split
            · exact h
            · show "text" ∈ get_allowed_types
                (update_user s id fun v =>
                  { v with allowed_types := some (l.filter fun x => x ≠ mt) }) id
              rw [get_allowed_types_update_set s id u _ heq]
              refine List.mem_filter.mpr ⟨hl, ?_⟩
              have hmt : mt ≠ "text" := hcond.2.1
              simpa using fun hh => hmt hh.symm
          · exact h
  · intro hmem
    have := List.of_mem_filter hmem
    simp at this
  · unfold process_message
    split
    · simp
    · split
      · simp
      · split
        · simp
        · dsimp only
          split
          · simp
          · split
            · simp
            · split
              · simp
              · split
                · next tb rest heqf =>
                  rw [filter_text_nil] at heqf
                  cases heqf
                · split
                  · simp
                  · simp

theorem text_always_allowed_witness :
    "text" ∈ get_allowed_types c3_store 1 ∧
    (lock_type c3_store 1 "text" = (c3_store, false) ∧
     "text" ∈ get_allowed_types (lock_type c3_store 1 "photo").1 1 ∧
     "text" ∉ (["url"].filter fun x => x ∉ ["text"] ∧ x ≠ "text") ∧
     (process_message c3_store transport_ok 0 1 ["text"]).2.1 ≠ Outcome.typeBlocked "photo") :=
  ⟨by decide, text_always_allowed c3_store 1 1 0 "photo" "photo" ["url"] ["text"]
    transport_ok (by decide)⟩

/-! ### C1 — reply routing resolves by nickname parsing, not MessageRoute -/

theorem ban_user_messages (s : Store) (now id : Int) (dur : Option Int) :
    (ban_user s now id dur).1.messages = s.messages := by
  unfold ban_user
  split
  · rfl
  · split
    · rfl
    · rfl

/-- Users Alice (1), Bob (2) and Carol (3); the `messages` table holds the
reply-routing record of bot message 99, delivered from 1 to 2. -/
def c1_store : Store :=
  ⟨[(1, mk_user "t1" "Alice" "c1"), (2, mk_user "t2" "Bob" "c2"),
    (3, mk_user "t3" "Carol" "c3")],
   [], [], [⟨99, 1, 2, 50⟩], [], [], []⟩

/-- C1 counterexample: user 2 replies to delivered bot message 99.  The
stored route record for message 99 names user 1 as the original sender, but
the handler resolves the destination by parsing the nickname out of the
replied-to message's displayed text — here `"–– Carol"` — and routes to
user 3 instead.  The `MessageRoute` record is never consulted. -/
theorem reply_routing_text_parse_counterexample :
    get_message_sender c1_store 99 = some 1 ∧
    spec_reply_destination c1_store 2 99 = some 1 ∧
    extract_nickname_from_message "hi\n–– Carol" = some "Carol" ∧
    reply_resolve_target c1_store 2 "hi\n–– Carol" = some 3 ∧
    (3 : Int) ≠ 1 := by decide

/-- C1 amended: the reply destination is resolved purely by nickname
extraction from the replied-to text — the result does not depend on the
`messages` (route) table at all; when the extracted nickname names an
existing user other than the sender, that user is the destination; and the
messaging path never writes a route record (the `messages` table is
unchanged by `process_message`). -/
theorem reply_routing_is_nickname_based (s : Store) (msgs : List MsgRouteRec)
    (transport : Int → Option String) (now uid tid : Int) (text nick : String)
    (msg_types : List String)
    (h1 : extract_nickname_from_message text = some nick)
    (h2 : find_user_by_nickname s nick = some tid)
    (h3 : tid ≠ uid) (h4 : tid ≠ 0) :
    reply_resolve_target { s with messages := msgs } uid text =
      reply_resolve_target s uid text ∧
    reply_resolve_target s uid text = some tid ∧
    ((process_message s transport now uid msg_types).1).messages = s.messages := by
  refine ⟨rfl, ?_, ?_⟩
  · unfold reply_resolve_target
    rw [h1]
    dsimp only
    rw [h2]
    dsimp only
    rw [if_pos ⟨h3, h4⟩]
  · unfold process_message
    split
    · rfl
    · split
      · rfl
      · dsimp only
        split
        · rfl
        · split
          · rfl
          · split
            · rfl
            · split
              · rfl
              · split
                · rfl
                · split
                  · rw [ban_user_messages]; rfl
                  · rfl

theorem reply_routing_is_nickname_based_witness :
    extract_nickname_from_message "hi\n–– Carol" = some "Carol" ∧
    find_user_by_nickname c1_store "Carol" = some 3 ∧
    (reply_resolve_target { c1_store with messages := [] } 2 "hi\n–– Carol" =
        reply_resolve_target c1_store 2 "hi\n–– Carol" ∧
     reply_resolve_target c1_store 2 "hi\n–– Carol" = some 3 ∧
     ((process_message c1_store transport_ok 0 2 ["text"]).1).messages =
       c1_store.messages) :=
  ⟨by decide, by decide, reply_routing_is_nickname_based c1_store [] transport_ok 0 2 3
    "hi\n–– Carol" "Carol" ["text"] (by decide) (by decide) (by decide) (by decide)⟩

/-! ### C6 — rate-limiter sliding window -/

/-- When every stored timestamp of the `(u, v)` pair is within the window of
`now`, the deletion step of `add_message_timestamp` removes nothing. -/
theorem add_message_timestamp_no_del (s : Store) (now u v : Int)
    (H : ∀ r ∈ s.message_timestamps, r.user_id = u → r.target_id = v →
      now - 60 ≤ r.timestamp) :
    (add_message_timestamp s now u v).message_timestamps =
      s.message_timestamps ++ [⟨u, v, now⟩] := by
  show (s.message_timestamps ++
      [({ user_id := u, target_id := v, timestamp := now } : TsRec)]).filter
      (fun r => ¬(r.user_id = u ∧ r.target_id = v ∧ r.timestamp < now - 60)) =
    s.message_timestamps ++ [({ user_id := u, target_id := v, timestamp := now } : TsRec)]
  rw [List.filter_eq_self.mpr]
  intro r hr
  rcases List.mem_append.mp hr with h | h
  · simp only [decide_eq_true_eq]
    rintro ⟨h1, h2, h3⟩
    have := H r h h1 h2
    omega
  · simp only [List.mem_singleton] at h
    subst h
    simp only [decide_eq_true_eq]
    rintro ⟨-, -, h3⟩
    omega

theorem pair_filter_after_add (s : Store) (now u v : Int)
    (H : ∀ r ∈ s.message_timestamps, r.user_id = u → r.target_id = v →
      now - 60 ≤ r.timestamp) :
    ((add_message_timestamp s now u v).message_timestamps.filter
      fun r => r.user_id = u ∧ r.target_id = v) =
    (s.message_timestamps.filter fun r => r.user_id = u ∧ r.target_id = v) ++
      [⟨u, v, now⟩] := by
  rw [add_message_timestamp_no_del s now u v H, List.filter_append]
  simp

theorem count_after_add (s : Store) (now u v : Int)
    (H : ∀ r ∈ s.message_timestamps, r.user_id = u → r.target_id = v →
      now - 60 ≤ r.timestamp) :
    get_message_count_in_window (add_message_timestamp s now u v) now u v =
      (s.message_timestamps.filter fun r => r.user_id = u ∧ r.target_id = v).length + 1 := by
  unfold get_message_count_in_window
  rw [add_message_timestamp_no_del s now u v H, List.filter_append]
  have hcong : (s.message_timestamps.filter fun r =>
        r.user_id = u ∧ r.target_id = v ∧ now - 60 ≤ r.timestamp) =
      s.message_timestamps.filter fun r => r.user_id = u ∧ r.target_id = v := by
    apply List.filter_congr
    intro r hr
    by_cases h1 : r.user_id = u
    · by_cases h2 : r.target_id = v
      · have h3 := H r hr h1 h2
        simp [h1, h2, h3]
      · simp [h2]
    · simp [h1]
  rw [hcong]
  have hnow : now - 60 ≤ now := by omega
  simp [hnow]

/-- After a gap of more than 60 seconds, the deletion step drops every old
pair entry and only the fresh timestamp is counted. -/
theorem count_after_add_gap (s : Store) (now u v : Int)
    (H : ∀ r ∈ s.message_timestamps, r.user_id = u → r.target_id = v →
      r.timestamp < now - 60) :
    get_message_count_in_window (add_message_timestamp s now u v) now u v = 1 := by
  unfold get_message_count_in_window add_message_timestamp
  dsimp only
  rw [List.filter_append, List.filter_append]
  have h1 : (s.message_timestamps.filter fun r =>
      ¬(r.user_id = u ∧ r.target_id = v ∧ r.timestamp < now - 60)).filter
      (fun r => r.user_id = u ∧ r.target_id = v ∧ now - 60 ≤ r.timestamp) = [] := by
    rw [List.filter_eq_nil_iff]
    intro r hr
    have hkeep := List.of_mem_filter hr
    simp only [decide_eq_true_eq] at hkeep ⊢
    rintro ⟨ha, hb, hc⟩
    have := H r (List.mem_of_mem_filter hr) ha hb
    omega
  have hnow : now - 60 ≤ now := by omega
  rw [h1]
  simp [hnow]

/-- The handlers' call pattern for a sequence of messages: each call appends
a timestamp and reads back the window count. -/
def record_calls (u v : Int) : Store → List Int → Store × List Nat
  | s, [] => (s, [])
  | s, t :: ts =>
    let r := record_and_check s t u v
    let rest := record_calls u v r.1 ts
    (rest.1, r.2 :: rest.2)

theorem record_calls_counts (u v : Int) (ts : List Int) :
    ∀ (s : Store) (done : List Int),
      ((s.message_timestamps.filter fun r => r.user_id = u ∧ r.target_id = v).map
        (·.timestamp)) = done →
      (∀ a, a ∈ done ++ ts → ∀ b, b ∈ done ++ ts → a - b ≤ 60) →
      (record_calls u v s ts).2 = List.range' (done.length + 1) ts.length := by
  induction ts with
  | nil => intro s done _ _; rfl
  | cons t ts ih =>
    intro s done hdone hwin
    have H : ∀ r ∈ s.message_timestamps, r.user_id = u → r.target_id = v →
        t - 60 ≤ r.timestamp := by
      intro r hr h1 h2
      have hts : r.timestamp ∈ done := by
        rw [← hdone]
        exact List.mem_map_of_mem _ (List.mem_filter.mpr ⟨hr, by simp [h1, h2]⟩)
      have h60 := hwin t (by simp) r.timestamp (by simp [hts])
      omega
    have hcount : (record_and_check s t u v).2 = done.length + 1 := by
      show get_message_count_in_window (add_message_timestamp s t u v) t u v = _
      rw [count_after_add s t u v H]
      have hlen := congrArg List.length hdone
      rw [List.length_map] at hlen
      rw [hlen]
    have hdone' : (((record_and_check s t u v).1).message_timestamps.filter
        fun r => r.user_id = u ∧ r.target_id = v).map (·.timestamp) = done ++ [t] := by
      show ((add_message_timestamp s t u v).message_timestamps.filter _).map _ = _
      rw [pair_filter_after_add s t u v H, List.map_append, hdone]
      rfl
    have hwin' : ∀ a, a ∈ (done ++ [t]) ++ ts → ∀ b, b ∈ (done ++ [t]) ++ ts →
        a - b ≤ 60 := by
      intro a ha b hb
      apply hwin <;> simp only [List.mem_append, List.mem_cons, List.mem_singleton] at * <;>
        tauto
    have hrec := ih (record_and_check s t u v).1 (done ++ [t]) hdone' hwin'
    calc (record_calls u v s (t :: ts)).2
        = (record_and_check s t u v).2 ::
            (record_calls u v (record_and_check s t u v).1 ts).2 := rfl
      _ = (done.length + 1) :: List.range' ((done ++ [t]).length + 1) ts.length := by
          rw [hcount, hrec]
      _ = List.range' (done.length + 1) (t :: ts).length := by
          simp [List.range'_succ]

/-- Empty store for the C6 witness. -/
def c6_store : Store := ⟨[], [], [], [], [], [], []⟩

/-- A store whose only rate entry for the pair (4, 5) is 100 seconds old. -/
def c6_store2 : Store := ⟨[], [], [], [], [⟨4, 5, -100⟩], [], []⟩

/-- C6: with no previous entries for the pair, `N` record-and-check calls
within one 60-second window return 1, 2, …, N in order (so the N-th returns
N); and a call made when every stored timestamp of the pair is more than 60
seconds old returns 1. -/
theorem rate_window_count_and_reset (s s2 : Store) (u v now : Int) (ts : List Int)
    (hclean : s.message_timestamps.filter
      (fun r => r.user_id = u ∧ r.target_id = v) = [])
    (hwin : ∀ a ∈ ts, ∀ b ∈ ts, a - b ≤ 60)
    (hgap : ∀ r ∈ s2.message_timestamps, r.user_id = u → r.target_id = v →
      r.timestamp < now - 60) :
    (record_calls u v s ts).2 = List.range' 1 ts.length ∧
    (record_and_check s2 now u v).2 = 1 := by
  constructor
  · have h := record_calls_counts u v ts s [] (by rw [hclean]; rfl)
      (by simpa using hwin)
    simpa using h
  · show get_message_count_in_window (add_message_timestamp s2 now u v) now u v = 1
    exact count_after_add_gap s2 now u v hgap

theorem rate_window_count_and_reset_witness :
    (c6_store.message_timestamps.filter
      (fun r => r.user_id = 4 ∧ r.target_id = 5) = []) ∧
    (∀ a ∈ ([0, 10, 60] : List Int), ∀ b ∈ ([0, 10, 60] : List Int), a - b ≤ 60) ∧
    (∀ r ∈ c6_store2.message_timestamps, r.user_id = 4 → r.target_id = 5 →
      r.timestamp < (0 : Int) - 60) ∧
    ((record_calls 4 5 c6_store [0, 10, 60]).2 = List.range' 1 3 ∧
     (record_and_check c6_store2 0 4 5).2 = 1) :=
  ⟨by decide, by decide, by decide,
   rate_window_count_and_reset c6_store c6_store2 4 5 0 [0, 10, 60]
     (by decide) (by decide) (by decide)⟩

/-! ### C5 — the 61st message in a minute: ban, one report, no delivery -/

/-- The invariant maintained while a sender `S` keeps messaging target `U`
through the handler: both users exist and are unbanned, the pending-target
connection points at `U`, no block in either direction, the transport
reaches `U`, the message's type tags pass both filters, and the rate rows of
the pair carry exactly the timestamps `done`. -/
def good_state (transport : Int → Option String) (S U : Int)
    (msg_types : List String) (s : Store) (done : List Int) : Prop :=
  (∃ u, get_user s S = some u ∧ u.banned = false) ∧
  (∃ w, get_user s U = some w ∧ w.banned = false) ∧
  U ≠ 0 ∧
  get_pending_target s S = some U ∧
  is_blocked_by_user_id s U S = false ∧
  is_blocked_by_user_id s S U = false ∧
  transport U = none ∧
  (msg_types.any fun t => t ∈ BLOCKED_TYPES) = false ∧
  msg_types.filter (fun t => t ∉ get_allowed_types s U ∧ t ≠ "text") = [] ∧
  (s.message_timestamps.filter fun r => r.user_id = S ∧ r.target_id = U).map
    (·.timestamp) = done

theorem pair_window_H (s : Store) (S U now : Int) (done : List Int)
    (htimes : (s.message_timestamps.filter fun r => r.user_id = S ∧ r.target_id = U).map
      (·.timestamp) = done)
    (hwin : ∀ d ∈ done, now - 60 ≤ d) :
    ∀ r ∈ s.message_timestamps, r.user_id = S → r.target_id = U →
      now - 60 ≤ r.timestamp := by
  intro r hr h1 h2
  have hts : r.timestamp ∈ done := by
    rw [← htimes]
    exact List.mem_map_of_mem _ (List.mem_filter.mpr ⟨hr, by simp [h1, h2]⟩)
  exact hwin _ hts

theorem get_user_ban_user (s : Store) (now id : Int) (dur : Option Int) (u : UserRec)
    (hu : get_user s id = some u) (hb : u.banned = false) :
    get_user (ban_user s now id dur).1 id = some (ban_update now dur u) := by
  unfold ban_user
  split
  · next heq => rw [heq] at hu; cases hu
  · next u2 heq =>
    rw [hu] at heq
    injection heq with h
    subst h
    rw [if_neg (by rw [hb]; exact Bool.false_ne_true)]
    have h3 : get_user (update_user s id (ban_update now dur)) id =
        some (ban_update now dur u) := by
      rw [get_user_update_self, hu]
      rfl
    exact h3

/-- One handler call under `good_state` reduces to the anti-spam decision:
over 60 messages in the window bans and reports, otherwise the message is
delivered. -/
theorem process_message_reduce (transport : Int → Option String) (S U now : Int)
    (msg_types : List String) (s : Store) (done : List Int)
    (hg : good_state transport S U msg_types s done)
    (hwin : ∀ d ∈ done, now - 60 ≤ d) :
    process_message s transport now S msg_types =
      (if done.length + 1 > 60 then
        ((ban_user (add_message_timestamp (update_last_activity s now S) now S U)
            now S (some 86400)).1, Outcome.spamBanned, 1)
       else
        (add_message_timestamp (update_last_activity s now S) now S U,
          Outcome.delivered, 0)) := by
  obtain ⟨⟨u0, huS, hbanS⟩, ⟨w0, huU, hbanU⟩, hU0, hpend, hb1, hb2, htr,
    hblocked, hfilter, htimes⟩ := hg
  unfold process_message
  rw [huS]
  dsimp only
  have hbS : is_banned s now S = false := by
    unfold is_banned; rw [huS]; simp [hbanS]
  rw [hbS]
  simp only [Bool.false_eq_true, if_false]
  rw [hblocked]
  simp only [Bool.false_eq_true, if_false]
  have hconn : get_connection (update_last_activity s now S) S = some U := by
    have hp : get_pending_target (update_last_activity s now S) S = some U := hpend
    unfold get_connection
    rw [hp]
    dsimp only
    rw [if_pos hU0]
  rw [hconn]
  dsimp only
  have huS1 : get_user (update_last_activity s now S) S =
      some { u0 with last_activity := now } := by
    have h := get_user_update_self s S (fun v => { v with last_activity := now })
    rw [huS] at h
    exact h
  have hw' : ∃ w', get_user (update_last_activity s now S) U = some w' ∧
      w'.banned = w0.banned ∧ w'.allowed_types = w0.allowed_types := by
    by_cases hUS : U = S
    · subst hUS
      have h := get_user_update_self s U (fun v => { v with last_activity := now })
      rw [huU] at h
      exact ⟨_, h, rfl, rfl⟩
    · have h := get_user_update_ne s S U (fun v => { v with last_activity := now }) hUS
      rw [huU] at h
      exact ⟨w0, h, rfl, rfl⟩
  obtain ⟨w', huU1, hbw', haw'⟩ := hw'
  have hbU1 : is_banned (update_last_activity s now S) now U = false := by
    unfold is_banned
    rw [huU1]
    dsimp only
    rw [hbw', hbanU]
    simp
  have hcc : can_connect (update_last_activity s now S) transport now S U = none := by
    unfold can_connect
    rw [huS1, huU1, hbU1]
    have hb1a : is_blocked_by_user_id (update_last_activity s now S) U S = false := hb1
    have hb2a : is_blocked_by_user_id (update_last_activity s now S) S U = false := hb2
    rw [hb1a, hb2a]
    simp [htr]
  rw [hcc]
  dsimp only
  rw [huU1]
  dsimp only
  have hga : get_allowed_types (update_last_activity s now S) U =
      get_allowed_types s U := by
    unfold get_allowed_types
    rw [huU1, huU]
    dsimp only
    rw [haw']
  rw [hga, hfilter]
  dsimp only
  have H := pair_window_H (update_last_activity s now S) S U now done htimes hwin
  have hcount : get_message_count_in_window
      (add_message_timestamp (update_last_activity s now S) now S U) now S U =
      done.length + 1 := by
    rw [count_after_add _ now S U H]
    have ht1 : (((update_last_activity s now S).message_timestamps.filter
        fun r => r.user_id = S ∧ r.target_id = U).map (·.timestamp)) = done := htimes
    have hlen := congrArg List.length ht1
    rw [List.length_map] at hlen
    rw [hlen]
  rw [hcount]

theorem process_message_delivered (transport : Int → Option String) (S U now : Int)
    (msg_types : List String) (s : Store) (done : List Int)
    (hg : good_state transport S U msg_types s done)
    (hwin : ∀ d ∈ done, now - 60 ≤ d) (hlen : done.length + 1 ≤ 60) :
    process_message s transport now S msg_types =
      (add_message_timestamp (update_last_activity s now S) now S U,
        Outcome.delivered, 0) := by
  rw [process_message_reduce transport S U now msg_types s done hg hwin,
    if_neg (by omega)]

theorem process_message_spam (transport : Int → Option String) (S U now : Int)
    (msg_types : List String) (s : Store) (done : List Int)
    (hg : good_state transport S U msg_types s done)
    (hwin : ∀ d ∈ done, now - 60 ≤ d) (hlen : done.length + 1 > 60) :
    process_message s transport now S msg_types =
      ((ban_user (add_message_timestamp (update_last_activity s now S) now S U)
          now S (some 86400)).1, Outcome.spamBanned, 1) := by
  rw [process_message_reduce transport S U now msg_types s done hg hwin,
    if_pos hlen]

/-- A delivered message preserves the invariant, appending its timestamp. -/
theorem good_state_step (transport : Int → Option String) (S U now : Int)
    (msg_types : List String) (s : Store) (done : List Int)
    (hg : good_state transport S U msg_types s done)
    (hwin : ∀ d ∈ done, now - 60 ≤ d) :
    good_state transport S U msg_types
      (add_message_timestamp (update_last_activity s now S) now S U)
      (done ++ [now]) := by
  obtain ⟨⟨u0, huS, hbanS⟩, ⟨w0, huU, hbanU⟩, hU0, hpend, hb1, hb2, htr,
    hblocked, hfilter, htimes⟩ := hg
  have huS1 : get_user (update_last_activity s now S) S =
      some { u0 with last_activity := now } := by
    have h := get_user_update_self s S (fun v => { v with last_activity := now })
    rw [huS] at h
    exact h
  have hw' : ∃ w', get_user (update_last_activity s now S) U = some w' ∧
      w'.banned = w0.banned ∧ w'.allowed_types = w0.allowed_types := by
    by_cases hUS : U = S
    · subst hUS
      have h := get_user_update_self s U (fun v => { v with last_activity := now })
      rw [huU] at h
      exact ⟨_, h, rfl, rfl⟩
    · have h := get_user_update_ne s S U (fun v => { v with last_activity := now }) hUS
      rw [huU] at h
      exact ⟨w0, h, rfl, rfl⟩
  obtain ⟨w', huU1, hbw', haw'⟩ := hw'
  have H := pair_window_H (update_last_activity s now S) S U now done htimes hwin
  refine ⟨⟨{ u0 with last_activity := now }, huS1, hbanS⟩,
    ⟨w', huU1, by rw [hbw']; exact hbanU⟩, hU0, hpend, hb1, hb2, htr, hblocked,
    ?_, ?_⟩
  · have hga : get_allowed_types
        (add_message_timestamp (update_last_activity s now S) now S U) U =
        get_allowed_types s U := by
      have h1 : get_allowed_types (update_last_activity s now S) U =
          get_allowed_types s U := by
        unfold get_allowed_types
        rw [huU1, huU]
        dsimp only
        rw [haw']
      exact h1
    rw [hga]
    exact hfilter
  · rw [pair_filter_after_add (update_last_activity s now S) now S U H,
      List.map_append]
    have ht1 : (((update_last_activity s now S).message_timestamps.filter
        fun r => r.user_id = S ∧ r.target_id = U).map (·.timestamp)) = done := htimes
    rw [ht1]
    rfl

theorem spam_final_state (s2 : Store) (now S : Int) (u1 : UserRec)
    (hu : get_user s2 S = some u1) (hb : u1.banned = false) :
    ∃ uF, get_user (ban_user s2 now S (some 86400)).1 S = some uF ∧
      uF.banned = true ∧ uF.ban_expires_at = some (now + 86400) := by
  exact ⟨ban_update now (some 86400) u1, get_user_ban_user s2 now S _ u1 hu hb,
    rfl, rfl⟩

theorem c5_aux (transport : Int → Option String) (S U : Int)
    (msg_types : List String) :
    ∀ (ts : List Int) (s : Store) (done : List Int),
      good_state transport S U msg_types s done →
      (∀ a, a ∈ done ++ ts → ∀ b, b ∈ done ++ ts → a - b ≤ 60) →
      done.length + ts.length = 61 →
      ∀ tlast, ts.getLast? = some tlast →
      (process_messages transport S msg_types s ts).2.1 =
        List.replicate (ts.length - 1) Outcome.delivered ++ [Outcome.spamBanned] ∧
      (process_messages transport S msg_types s ts).2.2 = 1 ∧
      ∃ uF, get_user (process_messages transport S msg_types s ts).1 S = some uF ∧
        uF.banned = true ∧ uF.ban_expires_at = some (tlast + 86400) := by
  intro ts
  induction ts with
  | nil =>
    intro s done _ _ _ tlast hlast
    simp at hlast
  | cons t rest ih =>
    intro s done hg hwin hlen tlast hlast
    rcases rest with _ | ⟨t2, rest2⟩
    · have hd60 : done.length = 60 := by simpa using hlen
      have hw1 : ∀ d ∈ done, t - 60 ≤ d := by
        intro d hd
        have := hwin t (by simp) d (by simp [hd])
        omega
      have hstep := process_message_spam transport S U t msg_types s done hg hw1
        (by omega)
      have htv : tlast = t := by
        have hx : ([t] : List Int).getLast? = some t := rfl
        rw [hx] at hlast
        exact (Option.some.inj hlast).symm
      refine ⟨?_, ?_, ?_⟩
      · show (process_message s transport t S msg_types).2.1 :: ([] : List Outcome) = _
        rw [hstep]
        rfl
      · show (process_message s transport t S msg_types).2.2 + 0 = 1
        rw [hstep]
      · obtain ⟨⟨u0, huS, hbanS⟩, _⟩ := hg
        have huS1 : get_user
            (add_message_timestamp (update_last_activity s t S) t S U) S =
            some { u0 with last_activity := t } := by
          have h := get_user_update_self s S (fun v => { v with last_activity := t })
          rw [huS] at h
          exact h
        have hfin := spam_final_state
          (add_message_timestamp (update_last_activity s t S) t S U) t S
          { u0 with last_activity := t } huS1 hbanS
        show ∃ uF, get_user (process_message s transport t S msg_types).1 S =
            some uF ∧ uF.banned = true ∧ uF.ban_expires_at = some (tlast + 86400)
        rw [hstep, htv]
        exact hfin
    · have hlen2 : done.length + 1 ≤ 60 := by
        simp only [List.length_cons] at hlen
        omega
      have hw1 : ∀ d ∈ done, t - 60 ≤ d := by
        intro d hd
        have := hwin t (by simp) d (by simp [hd])
        omega
      have hstep := process_message_delivered transport S U t msg_types s done hg
        hw1 hlen2
      have hg2 := good_state_step transport S U t msg_types s done hg hw1
      have hwin2 : ∀ a, a ∈ (done ++ [t]) ++ (t2 :: rest2) →
          ∀ b, b ∈ (done ++ [t]) ++ (t2 :: rest2) → a - b ≤ 60 := by
        intro a ha b hb
        apply hwin <;>
          simp only [List.mem_append, List.mem_cons, List.mem_singleton] at * <;>
          tauto
      have hlen3 : (done ++ [t]).length + (t2 :: rest2).length = 61 := by
        simp only [List.length_append, List.length_cons, List.length_nil] at hlen ⊢
        omega
      have hlast2 : (t2 :: rest2).getLast? = some tlast := by
        rw [List.getLast?_cons_cons] at hlast
        exact hlast
      have hrec := ih (add_message_timestamp (update_last_activity s t S) t S U)
        (done ++ [t]) hg2 hwin2 hlen3 tlast hlast2
      obtain ⟨ho, hr, hf⟩ := hrec
      refine ⟨?_, ?_, ?_⟩
      · show (process_message s transport t S msg_types).2.1 ::
            (process_messages transport S msg_types
              (process_message s transport t S msg_types).1 (t2 :: rest2)).2.1 = _
        rw [hstep]
        dsimp only
        rw [ho]
        simp [List.replicate_succ]
      · show (process_message s transport t S msg_types).2.2 +
            (process_messages transport S msg_types
              (process_message s transport t S msg_types).1 (t2 :: rest2)).2.2 = 1
        rw [hstep]
        dsimp only
        rw [hr]
      · show ∃ uF, get_user (process_messages transport S msg_types
            (process_message s transport t S msg_types).1 (t2 :: rest2)).1 S =
            some uF ∧ uF.banned = true ∧ uF.ban_expires_at = some (tlast + 86400)
        rw [hstep]
        exact hf

/-- C5: starting from a clean window, when a sender sends 61 messages to
their connected target within one 60-second window, the first 60 are
delivered and the 61st is not: its outcome is the spam suspension, exactly
one moderation report event is emitted over the whole sequence, and the
sender ends up banned with expiry 24 hours (86400 s) after the last
message. -/
theorem spam_61st_message_banned_reported_once (transport : Int → Option String)
    (S U : Int) (msg_types : List String) (ts : List Int) (s : Store) (tlast : Int)
    (hg : good_state transport S U msg_types s [])
    (hlen : ts.length = 61)
    (hwin : ∀ a ∈ ts, ∀ b ∈ ts, a - b ≤ 60)
    (hlast : ts.getLast? = some tlast) :
    (process_messages transport S msg_types s ts).2.1 =
      List.replicate 60 Outcome.delivered ++ [Outcome.spamBanned] ∧
    (process_messages transport S msg_types s ts).2.2 = 1 ∧
    ∃ uF, get_user (process_messages transport S msg_types s ts).1 S = some uF ∧
      uF.banned = true ∧ uF.ban_expires_at = some (tlast + 86400) := by
  have h := c5_aux transport S U msg_types ts s [] hg (by simpa using hwin)
    (by simpa using hlen) tlast hlast
  obtain ⟨ho, hr, hf⟩ := h
  refine ⟨?_, hr, hf⟩
  rw [ho, hlen]

/-- Sender 1 connected to target 2, both fresh users, used as the C5
witness. -/
def c5_store : Store :=
  ⟨[(1, mk_user "ta" "Alice" "ca"), (2, mk_user "tb" "Bob" "cb")],
   [], [⟨1, 2, 0⟩], [], [], [], []⟩

theorem spam_61st_message_banned_reported_once_witness :
    good_state transport_ok 1 2 ["text"] c5_store [] ∧
    (List.replicate 61 (0 : Int)).length = 61 ∧
    (∀ a ∈ List.replicate 61 (0 : Int), ∀ b ∈ List.replicate 61 (0 : Int),
      a - b ≤ 60) ∧
    (List.replicate 61 (0 : Int)).getLast? = some 0 ∧
    ((process_messages transport_ok 1 ["text"] c5_store
        (List.replicate 61 (0 : Int))).2.1 =
      List.replicate 60 Outcome.delivered ++ [Outcome.spamBanned] ∧
     (process_messages transport_ok 1 ["text"] c5_store
        (List.replicate 61 (0 : Int))).2.2 = 1 ∧
     ∃ uF, get_user (process_messages transport_ok 1 ["text"] c5_store
        (List.replicate 61 (0 : Int))).1 1 = some uF ∧
       uF.banned = true ∧ uF.ban_expires_at = some ((0 : Int) + 86400)) :=
  ⟨⟨⟨mk_user "ta" "Alice" "ca", by decide, by decide⟩,
    ⟨mk_user "tb" "Bob" "cb", by decide, by decide⟩,
    by decide, by decide, by decide, by decide, rfl, by decide, by decide, by decide⟩,
   by decide, by decide, by decide,
   spam_61st_message_banned_reported_once transport_ok 1 2 ["text"]
     (List.replicate 61 (0 : Int)) c5_store 0
     ⟨⟨mk_user "ta" "Alice" "ca", by decide, by decide⟩,
      ⟨mk_user "tb" "Bob" "cb", by decide, by decide⟩,
      by decide, by decide, by decide, by decide, rfl, by decide, by decide, by decide⟩
     (by decide) (by decide) (by decide)⟩

end Anonic
